import Mathlib

/-!
A shallow embedding of the session/credential core of the chirpy backend
(src/auth.ts, src/db/queries/tokens.ts, and the login/refresh/revoke
handlers of src/index.ts), together with theorems settling the spec claims.

Conventions of the embedding:
* JS `number` timestamps are `Int` (`nowSec` in seconds for JWT claims,
  `nowMs` in milliseconds for `Date` comparisons); `Math.floor(Date.now()/1000)`
  is `Int.fdiv nowMs 1000`.
* Thrown `Error` values are `Except String` carrying the source's message.
* The HMAC-SHA256 signature produced by the `jsonwebtoken` library is
  modelled collision-free: the signature of a payload under a secret is the
  pair of the payload and the secret, so two signatures agree exactly when
  both payload and secret agree.
* The database table of refresh tokens is a list of rows in insertion
  order; `db.select().where(eq(token, t))` followed by `result[0]` is the
  first row whose token column equals `t`.
-/

deriving instance DecidableEq for Except

namespace Chirpy

/-- The JWT claims object constructed in `makeJWT` (src/auth.ts):
`{iss, sub, iat, exp}`. `sub` is optional because a decoded payload of a
general token may lack the claim; `makeJWT` always sets it. -/
structure JwtPayload where
  iss : String
  sub : Option String
  iat : Int
  exp : Int
deriving DecidableEq, Repr

/-- A signed token as produced by `jwt.sign(payload, secret, HS256)`.
`sig` is the collision-free model of the HMAC-SHA256 signature. -/
structure Jwt where
  payload : JwtPayload
  sig : JwtPayload × String
deriving DecidableEq, Repr

/-- src/auth.ts `makeJWT(userID, expiresIn, secret)`:
`iat = Math.floor(Date.now()/1000)` is passed in as `nowSec`;
`exp = iat + expiresIn`; payload `{iss: "chirpy", sub: userID, iat, exp}`
signed with the secret. -/
def makeJWT (userID : String) (expiresIn : Int) (secret : String)
    (nowSec : Int) : Jwt :=
  let iat := nowSec
  let exp := iat + expiresIn
  let payload : JwtPayload := { iss := "chirpy", sub := some userID, iat := iat, exp := exp }
  { payload := payload, sig := (payload, secret) }

/-- The `jwt.verify(tokenString, secret)` library call: checks the
signature, then rejects with `TokenExpiredError` ("jwt expired") when
`clockTimestamp >= exp`, otherwise yields the decoded payload. -/
def jwtVerify (tok : Jwt) (secret : String) (nowSec : Int) :
    Except String JwtPayload :=
  if tok.sig ≠ (tok.payload, secret) then .error "invalid signature"
  else if nowSec ≥ tok.payload.exp then .error "jwt expired"
  else .ok tok.payload

/-- src/auth.ts `validateJWT(tokenString, secret)`: runs `jwt.verify`,
then `if (!decoded.sub) throw new Error("Invalid token payload: missing sub")`
(a missing claim and the empty string are both falsy in JS), and returns
`decoded.sub`. -/
def validateJWT (tokenString : Jwt) (secret : String) (nowSec : Int) :
    Except String String :=
  match jwtVerify tokenString secret nowSec with
  | .error e => .error e
  | .ok decoded =>
    match decoded.sub with
    | none => .error "Invalid token payload: missing sub"
    | some s =>
      if s = "" then .error "Invalid token payload: missing sub"
      else .ok s

/-- JS `String.prototype.split(" ")` on a list of characters: split at
every single space, keeping empty fields (`"".split(" ") = [""]`,
`"a  b".split(" ") = ["a","","b"]`). -/
def jsSplitSpaceList : List Char → List (List Char)
  | [] => [[]]
  | c :: cs =>
    if c = ' ' then [] :: jsSplitSpaceList cs
    else
      match jsSplitSpaceList cs with
      | [] => [[c]]
      | w :: ws => (c :: w) :: ws

/-- JS `authHeader.split(" ")`. -/
def jsSplit (s : String) : List String :=
  (jsSplitSpaceList s.toList).map (fun w => String.mk w)

/-- src/auth.ts `getBearerToken(req)`: reads `req.headers.authorization`
(`none` when the header is absent; JS `!authHeader` is also true for the
empty string), splits on single spaces, and demands exactly two fields
with first field `"Bearer"`; returns the second field. The misspelling
"authroization" is the source's. -/
def getBearerToken (authHeader : Option String) : Except String String :=
  match authHeader with
  | none => .error "No authorization header"
  | some h =>
    if h = "" then .error "No authorization header"
    else
      match jsSplit h with
      | [scheme, tok] =>
        if scheme = "Bearer" then .ok tok
        else .error "Malformed authroization header"
      | _ => .error "Malformed authroization header"

/-- A row of the refresh-token table. The schema module itself is not in
the source tree; the row shape is the set of columns written by
`createRefreshToken` and read by the handlers
(src/db/queries/tokens.ts, src/index.ts): token, userId, expiresAt,
revokedAt. `expiresAt`/`revokedAt` are `Date`s, i.e. milliseconds. -/
structure RefreshTokenRecord where
  token : String
  userId : String
  expiresAt : Int
  revokedAt : Option Int
deriving DecidableEq, Repr

/-- The refresh-token table: rows in insertion order. -/
abbrev TokenStore := List RefreshTokenRecord

/-- src/db/queries/tokens.ts `createRefreshToken`: inserts a new row with
`revokedAt` unset. -/
def createRefreshToken (token userId : String) (expiresAt : Int)
    (store : TokenStore) : TokenStore :=
  store ++ [{ token := token, userId := userId, expiresAt := expiresAt, revokedAt := none }]

/-- src/db/queries/tokens.ts `getRefreshToken`: `select ... where eq(token)`
then `result[0]` — the first row whose token column matches. -/
def getRefreshToken (token : String) : TokenStore → Option RefreshTokenRecord
  | [] => none
  | r :: rest => if r.token = token then some r else getRefreshToken token rest

/-- src/db/queries/tokens.ts `revokeRefreshToken`: `update ... set
revokedAt = new Date() where eq(token)` — every matching row gets
`revokedAt` set to now; non-matching rows are untouched. -/
def revokeRefreshToken (token : String) (nowMs : Int)
    (store : TokenStore) : TokenStore :=
  store.map (fun r => if r.token = token then { r with revokedAt := some nowMs } else r)

/-- Outcome of the refresh endpoint (src/index.ts `handlerRefresh`):
the three 401 validation failures, the 401 from the catch block mapping
header/token errors, and the 200 `{token}` success. -/
inductive RefreshResult where
  | notFound
  | revoked
  | expired
  | unauthorized
  | ok (accessToken : Jwt)
deriving DecidableEq, Repr

/-- src/index.ts `handlerRefresh`: extract the bearer token, look it up,
fail 401 in order (not found / revoked / `new Date() > expiresAt`), else
issue a fresh one-hour JWT for the record's userId. Both messages
`getBearerToken` can throw contain "header", so the catch block maps any
thrown error to 401 Unauthorized. No database write happens, so the
store is returned unchanged. -/
def handlerRefresh (authHeader : Option String) (store : TokenStore)
    (nowMs : Int) (secret : String) : RefreshResult × TokenStore :=
  match getBearerToken authHeader with
  | .error _ => (.unauthorized, store)
  | .ok refreshToken =>
    match getRefreshToken refreshToken store with
    | none => (.notFound, store)
    | some tokenRecord =>
      if tokenRecord.revokedAt.isSome then (.revoked, store)
      else if nowMs > tokenRecord.expiresAt then (.expired, store)
      else (.ok (makeJWT tokenRecord.userId (60 * 60) secret (Int.fdiv nowMs 1000)), store)

/-- Outcome of the revoke endpoint (src/index.ts `handlerRevoke`):
204 No Content on the happy path; a thrown header error reaches
`next(err)` and the generic error middleware. -/
inductive RevokeResult where
  | noContent
  | serverError (msg : String)
deriving DecidableEq, Repr

/-- src/index.ts `handlerRevoke`: extract the bearer token, run the
`revokeRefreshToken` update (which matches zero or more rows), answer
204 with no body. -/
def handlerRevoke (authHeader : Option String) (store : TokenStore)
    (nowMs : Int) : RevokeResult × TokenStore :=
  match getBearerToken authHeader with
  | .error e => (.serverError e, store)
  | .ok refreshToken => (.noContent, revokeRefreshToken refreshToken nowMs store)

/-- A user row as read by the login handler. -/
structure User where
  id : String
  email : String
  hashedPassword : String
deriving DecidableEq, Repr

/-- src/db/queries/users.ts `getUserByEmail`: select where email matches. -/
def getUserByEmail (email : String) (users : List User) : List User :=
  users.filter (fun u => u.email = email)

/-- src/auth.ts `checkPasswordHash(password, hash)` =
`argon2.verify(hash, password)`; the argon2 verifier itself is an
external library and enters as the parameter `argonVerify hash password`. -/
def checkPasswordHash (argonVerify : String → String → Bool)
    (password hash : String) : Bool :=
  argonVerify hash password

/-- Outcome of the login endpoint: the single 401 failure response
(status and JSON error message, identical for unknown email and wrong
password), or the 200 response carrying the sanitized profile and both
tokens. -/
inductive LoginResult where
  | fail (status : Nat) (errorMessage : String)
  | ok (profileId profileEmail : String) (accessToken : Jwt) (refreshToken : String)
deriving DecidableEq, Repr

/-- Result of running `handlerLogin`, instrumented with the number of
times the `checkPasswordHash` step was executed (to settle the
constant-time-hardening claim about control flow). -/
structure LoginOutcome where
  response : LoginResult
  store : TokenStore
  hashChecks : Nat
deriving DecidableEq, Repr

/-- src/index.ts `handlerLogin`: `user = (await getUserByEmail(email))[0]`;
`if (!user || !(await checkPasswordHash(password, user.hashedPassword)))`
answer 401 "Incorrect email or password" — note the short-circuit: when no
user row matches, `checkPasswordHash` is never called. Otherwise issue a
one-hour JWT, a fresh random refresh token (`makeRefreshToken()`, entering
as the parameter `freshToken`) stored with a 60-day expiry, and answer 200
with the password-stripped profile and both tokens. -/
def handlerLogin (argonVerify : String → String → Bool)
    (email password : String) (users : List User) (freshToken : String)
    (secret : String) (nowMs : Int) (store : TokenStore) : LoginOutcome :=
  match (getUserByEmail email users).head? with
  | none => { response := .fail 401 "Incorrect email or password", store := store, hashChecks := 0 }
  | some user =>
    if ¬ checkPasswordHash argonVerify password user.hashedPassword then
      { response := .fail 401 "Incorrect email or password", store := store, hashChecks := 1 }
    else
      let expiresInSeconds : Int := 60 * 60
      let accessToken := makeJWT user.id expiresInSeconds secret (Int.fdiv nowMs 1000)
      let dbExpiresAt := nowMs + 60 * 24 * 60 * 60 * 1000
      let store2 := createRefreshToken freshToken user.id dbExpiresAt store
      { response := .ok user.id user.email accessToken freshToken,
        store := store2, hashChecks := 1 }

/-- The operations that touch the refresh-token table: create, lookup
(a pure read), revoke, and the refresh handler. -/
inductive StoreOp where
  | create (token userId : String) (expiresAt : Int)
  | lookup (token : String)
  | revoke (token : String) (nowMs : Int)
  | refresh (authHeader : Option String) (nowMs : Int) (secret : String)

/-- The effect of one operation on the table. -/
def applyOp (store : TokenStore) : StoreOp → TokenStore
  | .create t u e => createRefreshToken t u e store
  | .lookup _ => store
  | .revoke t now => revokeRefreshToken t now store
  | .refresh h now secret => (handlerRefresh h store now secret).2

/-- The effect of a sequence of operations on the table. -/
def applyOps (store : TokenStore) : List StoreOp → TokenStore
  | [] => store
  | op :: ops => applyOps (applyOp store op) ops

/-! ## Lemmas about the JS space-splitter -/

theorem jsSplitSpaceList_ne_nil (l : List Char) : jsSplitSpaceList l ≠ [] := by
  cases l with
  | nil => simp [jsSplitSpaceList]
  | cons c cs =>
    simp only [jsSplitSpaceList]
    split_ifs
    · simp
    · cases jsSplitSpaceList cs <;> simp

theorem jsSplitSpaceList_cons_space (cs : List Char) :
    jsSplitSpaceList (' ' :: cs) = [] :: jsSplitSpaceList cs := by
  simp [jsSplitSpaceList]

theorem jsSplitSpaceList_cons_char (c : Char) (cs : List Char) (hc : ¬ c = ' ')
    (v : List Char) (vs : List (List Char)) (hr : jsSplitSpaceList cs = v :: vs) :
    jsSplitSpaceList (c :: cs) = (c :: v) :: vs := by
  simp only [jsSplitSpaceList, if_neg hc, hr]

theorem jsSplitSpaceList_no_space (l : List Char) (h : ' ' ∉ l) :
    jsSplitSpaceList l = [l] := by
  induction l with
  | nil => rfl
  | cons c cs ih =>
    simp only [List.mem_cons, not_or] at h
    have hc : ¬ c = ' ' := fun hc => h.1 hc.symm
    exact jsSplitSpaceList_cons_char c cs hc cs [] (ih h.2)

theorem jsSplitSpaceList_append_space (l1 l2 : List Char) (h : ' ' ∉ l1) :
    jsSplitSpaceList (l1 ++ ' ' :: l2) = l1 :: jsSplitSpaceList l2 := by
  induction l1 with
  | nil => simpa using jsSplitSpaceList_cons_space l2
  | cons c cs ih =>
    simp only [List.mem_cons, not_or] at h
    have hc : ¬ c = ' ' := fun hc => h.1 hc.symm
    have ih2 := ih h.2
    cases hr : jsSplitSpaceList l2 with
    | nil => exact absurd hr (jsSplitSpaceList_ne_nil l2)
    | cons v vs =>
      rw [hr] at ih2
      rw [List.cons_append, jsSplitSpaceList_cons_char c (cs ++ ' ' :: l2) hc cs (v :: vs) ih2]

theorem jsSplitSpaceList_eq_single (l w : List Char)
    (h : jsSplitSpaceList l = [w]) : l = w ∧ ' ' ∉ w := by
  induction l generalizing w with
  | nil =>
    simp only [jsSplitSpaceList, List.cons.injEq, and_true] at h
    exact ⟨h, by rw [← h]; simp⟩
  | cons c cs ih =>
    by_cases hc : c = ' '
    · subst hc
      rw [jsSplitSpaceList_cons_space] at h
      obtain ⟨-, h2⟩ := List.cons.inj h
      exact absurd h2 (jsSplitSpaceList_ne_nil cs)
    · cases hr : jsSplitSpaceList cs with
      | nil => exact absurd hr (jsSplitSpaceList_ne_nil cs)
      | cons v vs =>
        rw [jsSplitSpaceList_cons_char c cs hc v vs hr] at h
        obtain ⟨h1, h2⟩ := List.cons.inj h
        subst h2
        obtain ⟨hcsv, hv⟩ := ih v hr
        subst hcsv
        refine ⟨h1, ?_⟩
        rw [← h1]
        simp only [List.mem_cons, not_or]
        exact ⟨fun hs => hc hs.symm, hv⟩

theorem jsSplitSpaceList_eq_pair (l w1 w2 : List Char)
    (h : jsSplitSpaceList l = [w1, w2]) :
    l = w1 ++ ' ' :: w2 ∧ ' ' ∉ w1 ∧ ' ' ∉ w2 := by
  induction l generalizing w1 with
  | nil => simp [jsSplitSpaceList] at h
  | cons c cs ih =>
    by_cases hc : c = ' '
    · subst hc
      rw [jsSplitSpaceList_cons_space] at h
      obtain ⟨h1, h2⟩ := List.cons.inj h
      obtain ⟨hcs, hsp⟩ := jsSplitSpaceList_eq_single cs w2 h2
      subst hcs
      exact ⟨by rw [← h1]; rfl, by rw [← h1]; simp, hsp⟩
    · cases hr : jsSplitSpaceList cs with
      | nil => exact absurd hr (jsSplitSpaceList_ne_nil cs)
      | cons v vs =>
        rw [jsSplitSpaceList_cons_char c cs hc v vs hr] at h
        obtain ⟨h1, h2⟩ := List.cons.inj h
        subst h2
        obtain ⟨hcs, hv, hw2⟩ := ih v hr
        subst hcs
        refine ⟨by rw [← h1]; rfl, ?_, hw2⟩
        rw [← h1]
        simp only [List.mem_cons, not_or]
        exact ⟨fun hs => hc hs.symm, hv⟩

theorem string_eq_of_toList (a b : String) (h : a.toList = b.toList) : a = b := by
  cases a
  cases b
  exact congrArg String.mk (by simpa [String.toList] using h)

theorem mk_toList (s : String) : String.mk s.toList = s := rfl

theorem toList_append_str (a b : String) : (a ++ b).toList = a.toList ++ b.toList := rfl

theorem jsSplit_bearer (t : String) (hsp : ' ' ∉ t.toList) :
    jsSplit ("Bearer " ++ t) = ["Bearer", t] := by
  have h1 : ("Bearer " ++ t).toList = "Bearer".toList ++ ' ' :: t.toList := rfl
  simp only [jsSplit, h1,
    jsSplitSpaceList_append_space "Bearer".toList t.toList (by decide),
    jsSplitSpaceList_no_space t.toList hsp, List.map_cons, List.map_nil, mk_toList]

theorem getBearerToken_ok_of (t : String) (hsp : ' ' ∉ t.toList) :
    getBearerToken (some ("Bearer " ++ t)) = .ok t := by
  have hne : ¬ ("Bearer " ++ t) = "" := by
    intro he
    have := congrArg String.toList he
    rw [toList_append_str] at this
    simp at this
  simp [getBearerToken, if_neg hne, jsSplit_bearer t hsp]

theorem getBearerToken_ok_inv (h t : String) (hok : getBearerToken (some h) = .ok t) :
    h = "Bearer " ++ t ∧ ' ' ∉ t.toList := by
  simp only [getBearerToken] at hok
  by_cases hh : h = ""
  · rw [if_pos hh] at hok
    exact Except.noConfusion hok
  · rw [if_neg hh] at hok
    rcases hs : jsSplit h with _ | ⟨s0, _ | ⟨s1, _ | ⟨s2, ss⟩⟩⟩ <;> rw [hs] at hok
    · exact Except.noConfusion hok
    · exact Except.noConfusion hok
    · have hok2 : (if s0 = "Bearer" then (Except.ok s1 : Except String String)
          else .error "Malformed authroization header") = .ok t := hok
      by_cases hb : s0 = "Bearer"
      · rw [if_pos hb] at hok2
        have hst : s1 = t := Except.ok.inj hok2
        subst hst
        subst hb
        simp only [jsSplit] at hs
        rcases hl : jsSplitSpaceList h.toList with _ | ⟨w1, _ | ⟨w2, _ | ⟨w3, ws⟩⟩⟩ <;>
            rw [hl] at hs
        · simp at hs
        · simp at hs
        · simp only [List.map_cons, List.map_nil, List.cons.injEq, and_true] at hs
          obtain ⟨hw1, hw2⟩ := hs
          obtain ⟨hlist, hsp1, hsp2⟩ := jsSplitSpaceList_eq_pair h.toList w1 w2 hl
          have hw1' : w1 = "Bearer".toList := by rw [← hw1]; rfl
          have hw2' : w2 = s1.toList := by rw [← hw2]; rfl
          subst hw1'
          subst hw2'
          refine ⟨string_eq_of_toList _ _ ?_, hsp2⟩
          rw [hlist]
          rfl
        · simp at hs
      · rw [if_neg hb] at hok2
        exact Except.noConfusion hok2
    · exact Except.noConfusion hok

/-! ## Theorems about the access-token codec -/

/-- C1. The claim quantifies over every subject string, but `validateJWT`
rejects a falsy `sub` claim, and the empty string is falsy in JS: the
round-trip `verify(issue("", 3600, k), k)` throws "Invalid token payload:
missing sub" instead of returning `""`. -/
theorem c1_roundtrip_counterexample :
    validateJWT (makeJWT "" 3600 "k" 0) "k" 0 ≠ .ok "" ∧
    validateJWT (makeJWT "" 3600 "k" 0) "k" 0 =
      .error "Invalid token payload: missing sub" := by
  decide

/-- C1 (amended): for every nonempty subject and every secret, verifying a
token produced by `makeJWT(subject, 3600, secret)` with the same secret at
issuance time succeeds and returns exactly the embedded subject. -/
theorem c1_issue_verify_roundtrip (subject secret : String) (now : Int)
    (h : subject ≠ "") :
    validateJWT (makeJWT subject 3600 secret now) secret now = .ok subject := by
  simp only [validateJWT, makeJWT, jwtVerify, ne_eq]
  rw [if_neg (by simp), if_neg (by omega)]
  simp [h]

/-- C1 witness: the round-trip at the repository's own test vector. -/
theorem c1_issue_verify_roundtrip_witness :
    "user-123-abc" ≠ "" ∧
    validateJWT (makeJWT "user-123-abc" 3600 "super_secure_secret_key" 0)
      "super_secure_secret_key" 0 = .ok "user-123-abc" :=
  ⟨by decide, c1_issue_verify_roundtrip "user-123-abc" "super_secure_secret_key" 0 (by decide)⟩

/-- C9. A token issued with a negative TTL has `exp = iat + ttl < iat`, so
verification with the issuing secret at issuance time already satisfies
`now ≥ exp` and `jwt.verify` throws the expiry error. -/
theorem c9_negative_ttl_expired (subject secret : String) (ttl now : Int)
    (h : ttl < 0) :
    validateJWT (makeJWT subject ttl secret now) secret now = .error "jwt expired" := by
  simp only [validateJWT, makeJWT, jwtVerify, ne_eq]
  rw [if_neg (by simp), if_pos (by omega)]

/-- C9 witness: the repository test's own expired token (TTL −5). -/
theorem c9_negative_ttl_expired_witness :
    (-5 : Int) < 0 ∧
    validateJWT (makeJWT "user-123-abc" (-5) "super_secure_secret_key" 100)
      "super_secure_secret_key" 100 = .error "jwt expired" :=
  ⟨by decide, c9_negative_ttl_expired "user-123-abc" "super_secure_secret_key" (-5) 100 (by decide)⟩

/-- C10. A token whose signature is valid and which is unexpired but whose
`sub` claim is absent or the empty string is rejected by `validateJWT`
("Invalid token payload: missing sub"); in particular the issue-then-verify
round-trip fails when the issued subject is the empty string. -/
theorem c10_falsy_sub_rejected (p : JwtPayload) (secret : String) (now : Int)
    (hexp : now < p.exp) (hsub : p.sub = none ∨ p.sub = some "") :
    validateJWT { payload := p, sig := (p, secret) } secret now =
      .error "Invalid token payload: missing sub" ∧
    validateJWT (makeJWT "" 3600 secret now) secret now =
      .error "Invalid token payload: missing sub" := by
  constructor
  · simp only [validateJWT, jwtVerify, ne_eq]
    rw [if_neg (by simp), if_neg (by omega)]
    rcases hsub with h | h <;> simp [h]
  · simp only [validateJWT, makeJWT, jwtVerify, ne_eq]
    rw [if_neg (by simp), if_neg (by omega)]
    simp

/-- C10 witness: a signed, unexpired payload with no `sub` claim, and the
empty-subject round-trip, both rejected. -/
theorem c10_falsy_sub_rejected_witness :
    (0 : Int) < 10 ∧
    validateJWT { payload := { iss := "chirpy", sub := none, iat := 0, exp := 10 },
                  sig := ({ iss := "chirpy", sub := none, iat := 0, exp := 10 }, "s") } "s" 0 =
      .error "Invalid token payload: missing sub" ∧
    validateJWT (makeJWT "" 3600 "s" 0) "s" 0 =
      .error "Invalid token payload: missing sub" :=
  ⟨by decide,
    c10_falsy_sub_rejected { iss := "chirpy", sub := none, iat := 0, exp := 10 } "s" 0
      (by decide) (Or.inl rfl)⟩

/-! ## Theorems about credential extraction -/

/-- C8. The claim classifies a present-but-empty `Authorization` header as
malformed (field count 1, not 2), but `getBearerToken` tests `!authHeader`,
which is also true for the empty string: the code answers
"No authorization header" there, not the malformed error. -/
theorem c8_counterexample :
    (jsSplit "").length ≠ 2 ∧
    getBearerToken (some "") ≠ .error "Malformed authroization header" ∧
    getBearerToken (some "") = .error "No authorization header" := by
  decide

/-- C8 (amended): `getBearerToken` returns `t` exactly when the
`Authorization` header is literally `"Bearer " ++ t` with `t` free of
spaces (exactly two space-separated fields with scheme `Bearer`); it fails
with the missing-header error when the header is absent **or the empty
string**, and with the malformed-header error when the header is nonempty
and the field count is not two or the first field is not `"Bearer"`. -/
theorem c8_getBearerToken_classification (authHeader : Option String) (t : String) :
    (getBearerToken authHeader = .ok t ↔
      authHeader = some ("Bearer " ++ t) ∧ ' ' ∉ t.toList)
    ∧ (authHeader = none ∨ authHeader = some "" →
        getBearerToken authHeader = .error "No authorization header")
    ∧ (∀ h, authHeader = some h → ¬ h = "" →
        ((jsSplit h).length ≠ 2 ∨ (jsSplit h).head? ≠ some "Bearer") →
        getBearerToken authHeader = .error "Malformed authroization header") := by
  refine ⟨⟨?_, ?_⟩, ?_, ?_⟩
  · intro hok
    rcases authHeader with _ | h
    · exact Except.noConfusion hok
    · obtain ⟨he, hsp⟩ := getBearerToken_ok_inv h t hok
      exact ⟨by rw [he], hsp⟩
  · rintro ⟨ha, hsp⟩
    rw [ha]
    exact getBearerToken_ok_of t hsp
  · rintro (rfl | rfl)
    · rfl
    · rfl
  · rintro h rfl hne hcond
    simp only [getBearerToken, if_neg hne]
    rcases hs : jsSplit h with _ | ⟨s0, _ | ⟨s1, _ | ⟨s2, ss⟩⟩⟩
    · rfl
    · rfl
    · rw [hs] at hcond
      have hb : ¬ s0 = "Bearer" := by
        rcases hcond with hlen | hhead
        · simp at hlen
        · simpa using hhead
      show (if s0 = "Bearer" then (Except.ok s1 : Except String String)
        else .error "Malformed authroization header") = .error "Malformed authroization header"
      rw [if_neg hb]
    · rfl

/-- C8 witness: the spec's own scenario `"Bearer abc.def.ghi"`. -/
theorem c8_getBearerToken_classification_witness :
    getBearerToken (some "Bearer abc.def.ghi") = .ok "abc.def.ghi" :=
  (c8_getBearerToken_classification (some "Bearer abc.def.ghi") "abc.def.ghi").1.mpr
    ⟨rfl, by decide⟩

/-! ## Lemmas about the refresh-token store -/

theorem getRefreshToken_append_of_some (t : String) (s1 s2 : TokenStore)
    (r : RefreshTokenRecord) (h : getRefreshToken t s1 = some r) :
    getRefreshToken t (s1 ++ s2) = some r := by
  induction s1 with
  | nil => simp [getRefreshToken] at h
  | cons a as ih =>
    rw [List.cons_append]
    simp only [getRefreshToken] at h ⊢
    by_cases hc : a.token = t
    · rwa [if_pos hc] at h ⊢
    · rw [if_neg hc] at h ⊢
      exact ih h

theorem getRefreshToken_revoke (t t2 : String) (now : Int) (s : TokenStore) :
    getRefreshToken t (revokeRefreshToken t2 now s) =
      (getRefreshToken t s).map
        (fun r => if r.token = t2 then { r with revokedAt := some now } else r) := by
  induction s with
  | nil => rfl
  | cons a as ih =>
    simp only [revokeRefreshToken, List.map_cons] at ih ⊢
    have htok : (if a.token = t2 then { a with revokedAt := some now } else a).token
        = a.token := by
      by_cases h2 : a.token = t2
      · rw [if_pos h2]
      · rw [if_neg h2]
    simp only [getRefreshToken, htok]
    by_cases hc : a.token = t
    · rw [if_pos hc, if_pos hc]
      rfl
    · rw [if_neg hc, if_neg hc]
      exact ih

theorem revokeRefreshToken_of_not_found (t : String) (now : Int) (s : TokenStore)
    (h : getRefreshToken t s = none) : revokeRefreshToken t now s = s := by
  induction s with
  | nil => rfl
  | cons a as ih =>
    simp only [getRefreshToken] at h
    by_cases hc : a.token = t
    · rw [if_pos hc] at h
      exact Option.noConfusion h
    · rw [if_neg hc] at h
      simp only [revokeRefreshToken, List.map_cons, if_neg hc]
      rw [show List.map _ as = revokeRefreshToken t now as from rfl, ih h]

theorem handlerRefresh_eq (hdr : Option String) (t : String) (s : TokenStore)
    (now : Int) (secret : String) (h : getBearerToken hdr = .ok t) :
    handlerRefresh hdr s now secret =
      (match getRefreshToken t s with
       | none => (.notFound, s)
       | some r =>
         if r.revokedAt.isSome then (.revoked, s)
         else if now > r.expiresAt then (.expired, s)
         else (.ok (makeJWT r.userId (60 * 60) secret (Int.fdiv now 1000)), s)) := by
  simp only [handlerRefresh, h]

theorem handlerRefresh_store_unchanged (hdr : Option String) (s : TokenStore)
    (now : Int) (secret : String) : (handlerRefresh hdr s now secret).2 = s := by
  rcases hg : getBearerToken hdr with e | tk
  · simp [handlerRefresh, hg]
  · rw [handlerRefresh_eq hdr tk s now secret hg]
    rcases hl : getRefreshToken tk s with _ | r
    · rfl
    · by_cases h1 : r.revokedAt.isSome
      · simp [h1]
      · by_cases h2 : now > r.expiresAt <;> simp [h1, h2]

theorem revoked_stays_applyOp (t : String) (s : TokenStore) (op : StoreOp)
    (r : RefreshTokenRecord) (h : getRefreshToken t s = some r)
    (hrev : r.revokedAt.isSome) :
    ∃ r2, getRefreshToken t (applyOp s op) = some r2 ∧ r2.revokedAt.isSome := by
  cases op with
  | create t2 u e =>
    exact ⟨r, getRefreshToken_append_of_some t s _ r h, hrev⟩
  | lookup t2 => exact ⟨r, h, hrev⟩
  | revoke t2 now =>
    simp only [applyOp]
    rw [getRefreshToken_revoke, h]
    by_cases hc : r.token = t2
    · exact ⟨{ r with revokedAt := some now }, by simp [hc], by simp⟩
    · exact ⟨r, by simp [hc], hrev⟩
  | refresh hdr now sec =>
    simp only [applyOp, handlerRefresh_store_unchanged]
    exact ⟨r, h, hrev⟩

theorem revoked_stays_applyOps (t : String) (s : TokenStore) (ops : List StoreOp)
    (r : RefreshTokenRecord) (h : getRefreshToken t s = some r)
    (hrev : r.revokedAt.isSome) :
    ∃ r2, getRefreshToken t (applyOps s ops) = some r2 ∧ r2.revokedAt.isSome := by
  induction ops generalizing s r with
  | nil => exact ⟨r, h, hrev⟩
  | cons op ops ih =>
    obtain ⟨r2, h2, hrev2⟩ := revoked_stays_applyOp t s op r h hrev
    exact ih (applyOp s op) r2 h2 hrev2

/-! ## Theorems about the refresh/revoke lifecycle -/

/-- C3. With a well-formed bearer header carrying token `t`, refresh
succeeds (with some new access token) iff a stored record for `t` exists,
its `revokedAt` is absent and `now ≤ expiresAt`; otherwise it fails with
the not-found, revoked, or expired outcome respectively, in the source's
check order. -/
theorem c3_refresh_success_iff_usable (hdr : Option String) (t : String)
    (store : TokenStore) (now : Int) (sec : String)
    (h : getBearerToken hdr = .ok t) :
    ((∃ tok, (handlerRefresh hdr store now sec).1 = .ok tok) ↔
      ∃ r, getRefreshToken t store = some r ∧ r.revokedAt = none ∧ now ≤ r.expiresAt)
    ∧ (getRefreshToken t store = none →
        (handlerRefresh hdr store now sec).1 = .notFound)
    ∧ (∀ r, getRefreshToken t store = some r → r.revokedAt.isSome →
        (handlerRefresh hdr store now sec).1 = .revoked)
    ∧ (∀ r, getRefreshToken t store = some r → r.revokedAt = none → now > r.expiresAt →
        (handlerRefresh hdr store now sec).1 = .expired) := by
  rw [handlerRefresh_eq hdr t store now sec h]
  refine ⟨⟨?_, ?_⟩, ?_, ?_, ?_⟩
  · rintro ⟨tok, htok⟩
    rcases hl : getRefreshToken t store with _ | r
    · rw [hl] at htok
      exact RefreshResult.noConfusion htok
    · rw [hl] at htok
      have htok2 : (if r.revokedAt.isSome then
            ((RefreshResult.revoked, store) : RefreshResult × TokenStore)
          else if now > r.expiresAt then (.expired, store)
          else (.ok (makeJWT r.userId (60 * 60) sec (Int.fdiv now 1000)), store)).1
          = .ok tok := htok
      rcases hrev : r.revokedAt with _ | v
      · rw [hrev] at htok2
        simp only [Option.isSome_none, Bool.false_eq_true, if_false] at htok2
        by_cases hexp : now > r.expiresAt
        · rw [if_pos hexp] at htok2
          exact RefreshResult.noConfusion htok2
        · exact ⟨r, rfl, hrev, not_lt.mp hexp⟩
      · rw [hrev] at htok2
        simp only [Option.isSome_some, if_true] at htok2
        exact RefreshResult.noConfusion htok2
  · rintro ⟨r, hl, hrev, hle⟩
    rw [hl]
    have hnl : ¬ now > r.expiresAt := not_lt.mpr hle
    exact ⟨makeJWT r.userId (60 * 60) sec (Int.fdiv now 1000), by simp [hrev, hnl]⟩
  · intro hnone
    rw [hnone]
  · intro r hl hrev
    rw [hl]
    simp [hrev]
  · intro r hl hrev hexp
    rw [hl]
    simp [hrev, hexp]

/-- C3 witness: a stored, unrevoked, unexpired token refreshes. -/
theorem c3_refresh_success_iff_usable_witness :
    getBearerToken (some "Bearer t1") = .ok "t1" ∧
    ((∃ tok, (handlerRefresh (some "Bearer t1")
        [{ token := "t1", userId := "u1", expiresAt := 100, revokedAt := none }]
        50 "s").1 = .ok tok) ↔
      ∃ r, getRefreshToken "t1"
          [{ token := "t1", userId := "u1", expiresAt := 100, revokedAt := none }] = some r ∧
        r.revokedAt = none ∧ (50 : Int) ≤ r.expiresAt) :=
  ⟨by decide,
    (c3_refresh_success_iff_usable (some "Bearer t1") "t1"
      [{ token := "t1", userId := "u1", expiresAt := 100, revokedAt := none }]
      50 "s" (by decide)).1⟩

/-- C4. Once a stored refresh token's `revokedAt` is set, no sequence of
store operations (create, lookup, revoke, refresh) ever clears it, and any
refresh attempt with that token afterwards fails with the revoked outcome. -/
theorem c4_revoked_stays_revoked (store : TokenStore) (t : String)
    (ops : List StoreOp) (r : RefreshTokenRecord) (hdr : Option String)
    (now : Int) (sec : String)
    (h1 : getRefreshToken t store = some r) (h2 : r.revokedAt.isSome)
    (h3 : getBearerToken hdr = .ok t) :
    (∃ r2, getRefreshToken t (applyOps store ops) = some r2 ∧ r2.revokedAt.isSome)
    ∧ (handlerRefresh hdr (applyOps store ops) now sec).1 = .revoked := by
  obtain ⟨r2, hr2, hrev2⟩ := revoked_stays_applyOps t store ops r h1 h2
  refine ⟨⟨r2, hr2, hrev2⟩, ?_⟩
  rw [handlerRefresh_eq hdr t _ now sec h3, hr2]
  simp [hrev2]

/-- C4 witness: a revoked record stays revoked across a create, a revoke of
another token, a lookup and a refresh, and still refuses to refresh. -/
theorem c4_revoked_stays_revoked_witness :
    getRefreshToken "t1" [{ token := "t1", userId := "u1", expiresAt := 100, revokedAt := some 3 }]
      = some { token := "t1", userId := "u1", expiresAt := 100, revokedAt := some 3 } ∧
    (Option.some (3 : Int)).isSome ∧
    getBearerToken (some "Bearer t1") = .ok "t1" ∧
    (handlerRefresh (some "Bearer t1")
      (applyOps [{ token := "t1", userId := "u1", expiresAt := 100, revokedAt := some 3 }]
        [.create "t2" "u2" 999, .revoke "t9" 5, .lookup "t1",
         .refresh (some "Bearer t1") 7 "s"])
      0 "s").1 = .revoked :=
  ⟨by decide, by decide, by decide,
    (c4_revoked_stays_revoked
      [{ token := "t1", userId := "u1", expiresAt := 100, revokedAt := some 3 }] "t1"
      [.create "t2" "u2" 999, .revoke "t9" 5, .lookup "t1",
       .refresh (some "Bearer t1") 7 "s"]
      { token := "t1", userId := "u1", expiresAt := 100, revokedAt := some 3 }
      (some "Bearer t1") 0 "s" (by decide) (by decide) (by decide)).2⟩

/-- C6. A successful refresh returns an access token whose `sub` claim is
the `userId` stored on the refresh-token record, and leaves the store
completely unchanged (no rotation, no extension, no write). -/
theorem c6_refresh_same_subject_no_write (hdr : Option String) (t : String)
    (store : TokenStore) (now : Int) (sec : String) (r : RefreshTokenRecord)
    (h : getBearerToken hdr = .ok t) (hl : getRefreshToken t store = some r)
    (hrev : r.revokedAt = none) (hexp : now ≤ r.expiresAt) :
    (∃ tok, (handlerRefresh hdr store now sec).1 = .ok tok ∧
      tok.payload.sub = some r.userId)
    ∧ (handlerRefresh hdr store now sec).2 = store := by
  rw [handlerRefresh_eq hdr t store now sec h, hl]
  have hnl : ¬ now > r.expiresAt := not_lt.mpr hexp
  refine ⟨⟨makeJWT r.userId (60 * 60) sec (Int.fdiv now 1000), ?_, rfl⟩, ?_⟩
  · simp [hrev, hnl]
  · simp [hrev, hnl]

/-- C6 witness: refreshing a live token yields a token for its stored
subject and does not write the store. -/
theorem c6_refresh_same_subject_no_write_witness :
    getBearerToken (some "Bearer t1") = .ok "t1" ∧
    getRefreshToken "t1" [{ token := "t1", userId := "u1", expiresAt := 100, revokedAt := none }]
      = some { token := "t1", userId := "u1", expiresAt := 100, revokedAt := none } ∧
    (handlerRefresh (some "Bearer t1")
      [{ token := "t1", userId := "u1", expiresAt := 100, revokedAt := none }] 50 "s").2 =
      [{ token := "t1", userId := "u1", expiresAt := 100, revokedAt := none }] :=
  ⟨by decide, by decide,
    (c6_refresh_same_subject_no_write (some "Bearer t1") "t1"
      [{ token := "t1", userId := "u1", expiresAt := 100, revokedAt := none }] 50 "s"
      { token := "t1", userId := "u1", expiresAt := 100, revokedAt := none }
      (by decide) (by decide) (by decide) (by decide)).2⟩

/-- C7. Revoking a token with no matching stored record answers 204 No
Content (success, not an error) and leaves every stored record unchanged:
the `update ... where` matches zero rows. -/
theorem c7_revoke_unknown_token_noop (hdr : Option String) (t : String)
    (store : TokenStore) (now : Int)
    (h : getBearerToken hdr = .ok t) (hl : getRefreshToken t store = none) :
    (handlerRevoke hdr store now).1 = .noContent ∧
    (handlerRevoke hdr store now).2 = store := by
  simp only [handlerRevoke, h]
  exact ⟨trivial, revokeRefreshToken_of_not_found t now store hl⟩

/-- C7 witness: revoking an unknown token succeeds and writes nothing. -/
theorem c7_revoke_unknown_token_noop_witness :
    getBearerToken (some "Bearer t2") = .ok "t2" ∧
    getRefreshToken "t2" [{ token := "t1", userId := "u1", expiresAt := 100, revokedAt := none }]
      = none ∧
    (handlerRevoke (some "Bearer t2")
      [{ token := "t1", userId := "u1", expiresAt := 100, revokedAt := none }] 5).1 =
      .noContent :=
  ⟨by decide, by decide,
    (c7_revoke_unknown_token_noop (some "Bearer t2") "t2"
      [{ token := "t1", userId := "u1", expiresAt := 100, revokedAt := none }] 5
      (by decide) (by decide)).1⟩

/-! ## Theorems about login -/

/-- C2. The claim says the hash-verification step runs even when no account
matches the email. In the code, `!user || !(await checkPasswordHash(...))`
short-circuits: with no matching account (here: an empty user table) the
hash check runs zero times. -/
theorem c2_dummy_hash_counterexample :
    getUserByEmail "a@b.com" ([] : List User) = [] ∧
    (handlerLogin (fun _ _ => true) "a@b.com" "secret123" [] "rt" "s" 0 []).hashChecks = 0 ∧
    (handlerLogin (fun _ _ => true) "a@b.com" "secret123" [] "rt" "s" 0 []).response =
      .fail 401 "Incorrect email or password" := by
  decide

/-- C2 (amended): the hash-verification step runs exactly once when an
account matches the presented email and is skipped entirely (short-circuit,
no dummy-hash verification) when none does — although both branches return
the same outward failure. -/
theorem c2_hash_check_iff_account_matches (argonVerify : String → String → Bool)
    (email password : String) (users : List User) (freshToken secret : String)
    (nowMs : Int) (store : TokenStore) :
    (handlerLogin argonVerify email password users freshToken secret nowMs store).hashChecks =
      if (getUserByEmail email users).head?.isSome then 1 else 0 := by
  simp only [handlerLogin]
  rcases hu : (getUserByEmail email users).head? with _ | u
  · rfl
  · by_cases hc : checkPasswordHash argonVerify password u.hashedPassword <;> simp [hc]

/-- C5. Whether the email matches no account or the password check fails
against the stored hash, the outward response is the identical
401 "Incorrect email or password" — revealing nothing about whether the
email exists. -/
theorem c5_login_failure_indistinguishable (argonVerify : String → String → Bool)
    (email password : String) (users : List User) (freshToken secret : String)
    (nowMs : Int) (store : TokenStore) :
    ((getUserByEmail email users).head? = none →
      (handlerLogin argonVerify email password users freshToken secret nowMs store).response =
        .fail 401 "Incorrect email or password")
    ∧ (∀ u, (getUserByEmail email users).head? = some u →
        checkPasswordHash argonVerify password u.hashedPassword = false →
        (handlerLogin argonVerify email password users freshToken secret nowMs store).response =
          .fail 401 "Incorrect email or password") := by
  constructor
  · intro h
    simp [handlerLogin, h]
  · intro u hu hc
    simp [handlerLogin, hu, hc]

/-- C5 witness: a wrong password against an existing account produces the
same failure value as an unknown email. -/
theorem c5_login_failure_indistinguishable_witness :
    (getUserByEmail "a@b.com" [{ id := "u1", email := "a@b.com", hashedPassword := "H" }]).head?
      = some { id := "u1", email := "a@b.com", hashedPassword := "H" } ∧
    (handlerLogin (fun _ _ => false) "a@b.com" "wrong"
      [{ id := "u1", email := "a@b.com", hashedPassword := "H" }] "rt" "s" 0 []).response =
      .fail 401 "Incorrect email or password" :=
  ⟨by decide,
    (c5_login_failure_indistinguishable (fun _ _ => false) "a@b.com" "wrong"
      [{ id := "u1", email := "a@b.com", hashedPassword := "H" }] "rt" "s" 0 []).2
      { id := "u1", email := "a@b.com", hashedPassword := "H" } (by decide) (by decide)⟩

end Chirpy
